import Mathlib

/-!
Verification development for the PWMMotorControl repository.

The repository source available here is the header `src/src/PWMDcMotor.h`:
it fixes the numeric constants, the direction/stop-mode encodings, the
derived macro constants and the declarations of the `PWMDcMotor` class.
The method bodies (`PWMDcMotor.hpp`) are not part of the source tree, so
the behaviour of the member functions is modelled from the specification
(`spec.md`), as indicated on each such definition by a doc comment
starting with `Modelled from the spec:`.

The constants below are transcribed from `PWMDcMotor.h` for the default
build configuration: no `USE_L298_BRIDGE`, no `USE_ADAFRUIT_MOTOR_SHIELD`,
no `VIN_2_LI_ION` / `VIN_1_LI_ION`, ramp support enabled.  Arithmetic on
the C side is integer arithmetic on values that stay far below any
overflow boundary (the macros force `long` where needed), so `Nat` with
truncating division faithfully represents it.
-/

namespace PWMMotorControl

/-! ### Constants from `PWMDcMotor.h` -/

def MILLIS_IN_ONE_SECOND : Nat := 1000

def MILLIMETER_IN_ONE_CENTIMETER : Nat := 10

def MAX_SPEED_PWM : Nat := 255

/-- Default configuration: 4 x AA rechargeable batteries (4.8 volt). -/
def FULL_BRIDGE_INPUT_MILLIVOLT : Nat := 4800

/-- Default configuration: not an L298 bridge, so no effective loss. -/
def FULL_BRIDGE_LOSS_MILLIVOLT : Nat := 0

def FULL_BRIDGE_OUTPUT_MILLIVOLT : Nat :=
  FULL_BRIDGE_INPUT_MILLIVOLT - FULL_BRIDGE_LOSS_MILLIVOLT

def DEFAULT_DRIVE_MILLIVOLT : Nat := 2000

def DEFAULT_DRIVE_SPEED_PWM : Nat :=
  (DEFAULT_DRIVE_MILLIVOLT * MAX_SPEED_PWM + FULL_BRIDGE_OUTPUT_MILLIVOLT / 2) /
    FULL_BRIDGE_OUTPUT_MILLIVOLT

def DEFAULT_MILLIMETER_PER_SECOND : Nat := 220

def DEFAULT_MILLIS_PER_CENTIMETER : Nat :=
  MILLIS_IN_ONE_SECOND * MILLIMETER_IN_ONE_CENTIMETER / DEFAULT_MILLIMETER_PER_SECOND

def DEFAULT_MOTOR_START_TIME_MILLIS : Nat := 20

def SPEED_PWM_FOR_1_VOLT : Nat := 1000 * MAX_SPEED_PWM / FULL_BRIDGE_OUTPUT_MILLIVOLT

def RAMP_UP_VOLTAGE_PER_SECOND : Nat := 12

def RAMP_DOWN_VOLTAGE_PER_SECOND : Nat := 14

def RAMP_INTERVAL_MILLIS : Nat := 20

def RAMP_UP_VALUE_OFFSET_MILLIVOLT : Nat := 2000

def RAMP_DOWN_VALUE_OFFSET_MILLIVOLT : Nat := 2500

def RAMP_UP_VALUE_OFFSET_SPEED_PWM : Nat :=
  RAMP_UP_VALUE_OFFSET_MILLIVOLT * MAX_SPEED_PWM / FULL_BRIDGE_OUTPUT_MILLIVOLT

/-- Transcribed exactly as the macro is written in `PWMDcMotor.h` line 197:
its body expands `RAMP_UP_VALUE_OFFSET_MILLIVOLT`, not
`RAMP_DOWN_VALUE_OFFSET_MILLIVOLT`. -/
def RAMP_DOWN_VALUE_OFFSET_SPEED_PWM : Nat :=
  RAMP_UP_VALUE_OFFSET_MILLIVOLT * MAX_SPEED_PWM / FULL_BRIDGE_OUTPUT_MILLIVOLT

/-- The generic millivolt-to-PWM conversion shape that both ramp offset macros
follow; line 197 of the header applies it to `RAMP_UP_VALUE_OFFSET_MILLIVOLT`.
Used to express which millivolt constant the ramp-down offset actually
depends on. -/
def rampOffsetSpeedPWMofMillivolt (offsetMillivolt : Nat) : Nat :=
  offsetMillivolt * MAX_SPEED_PWM / FULL_BRIDGE_OUTPUT_MILLIVOLT

def RAMP_VALUE_MIN_SPEED_PWM : Nat := DEFAULT_DRIVE_SPEED_PWM

def RAMP_UP_VALUE_DELTA : Nat :=
  SPEED_PWM_FOR_1_VOLT * RAMP_UP_VOLTAGE_PER_SECOND /
    (MILLIS_IN_ONE_SECOND / RAMP_INTERVAL_MILLIS)

def RAMP_DOWN_VALUE_DELTA : Nat :=
  SPEED_PWM_FOR_1_VOLT * RAMP_DOWN_VOLTAGE_PER_SECOND /
    (MILLIS_IN_ONE_SECOND / RAMP_INTERVAL_MILLIS)

/-! ### Direction and stop-mode encodings from `PWMDcMotor.h` -/

def DIRECTION_STOP : Nat := 0x00

def STOP_MODE_BRAKE : Nat := 0x00

def DIRECTION_FORWARD : Nat := 0x01

def DIRECTION_BACKWARD : Nat := 0x02

def STOP_MODE_RELEASE : Nat := 0x03

def DIRECTION_MASK : Nat := DIRECTION_FORWARD ||| DIRECTION_BACKWARD

def STOP_MODE_KEEP : Nat := 1

/-- `#define oppositeDIRECTION(aDirection) (aDirection ^ DIRECTION_MASK)`. -/
def oppositeDIRECTION (aDirection : Nat) : Nat := aDirection ^^^ DIRECTION_MASK

/-! ### Ramp Controller state machine

The member function bodies (`updateMotor`, the start/stop commands and the
direction-change handling) are not present in the source tree, only their
declarations in `PWMDcMotor.h`.  The state machine below is therefore
modelled from the specification, section 4.3 (transition set) together
with sections 3 and 4.5, using the specification's names for the states
and fields.  The numeric parameters (kick offset, per-tick deltas, the
minimum-sustainable duty threshold) are the derived constants of the
header transcribed above. -/

/-- Drive direction, the specification's enum {Forward, Backward, Stopped}. -/
inductive Direction where
  | forward
  | backward
  | stopped
deriving DecidableEq, Repr

/-- Ramp state, the specification's closed set
{Stopped, Starting, RampingUp, Driving, RampingDown}; these correspond to
the header's `MOTOR_STATE_STOPPED .. MOTOR_STATE_RAMP_DOWN` codes 0..4. -/
inductive RampState where
  | stopped
  | starting
  | rampingUp
  | driving
  | rampingDown
deriving DecidableEq, Repr

/-- Per-motor state of the Ramp Controller, specification section 3. -/
structure MotorState where
  rampState : RampState
  /-- The duty cycle actually applied to the driver this tick. -/
  currentSpeed : Nat
  /-- The duty-cycle value the current ramp segment is moving toward. -/
  rampTargetSpeed : Nat
  direction : Direction
  /-- Direction requested by a reversal that is waiting for the ramp-down
  to complete before the motor restarts. -/
  pendingDirection : Option Direction
deriving DecidableEq, Repr

/-- Initial state: speed 0, direction Stopped, ramp state Stopped. -/
def initMotorState : MotorState :=
  { rampState := .stopped
    currentSpeed := 0
    rampTargetSpeed := 0
    direction := .stopped
    pendingDirection := none }

/-- Modelled from the spec: the per-tick update `updateMotor` of the Ramp
Controller, section 4.3.
* `Stopped`: if a direction reversal is pending, re-enter `Starting` in the
  new direction, else do nothing.
* `Starting`: left unconditionally on the very next tick: apply the kick
  duty cycle (`RAMP_UP_VALUE_OFFSET_SPEED_PWM`) and move to `RampingUp`
  when the target exceeds the kick, otherwise jump directly to the target
  and `Driving` (`RampingUp` is only guaranteed not to be skipped when the
  target exceeds the kick).
* `RampingUp`: increase by `RAMP_UP_VALUE_DELTA`; on reaching or exceeding
  the target, clamp exactly to the target and move to `Driving`.
* `Driving`: steady state (the distance-deadline trigger is an external
  command, `startRampDown`).
* `RampingDown`: decrease by `RAMP_DOWN_VALUE_DELTA`; at or below the
  minimum-sustainable threshold `RAMP_VALUE_MIN_SPEED_PWM`, drive the duty
  cycle to exactly 0 and become `Stopped` (direction Stopped, since the
  applied speed is 0). -/
def updateMotor (s : MotorState) : MotorState :=
  match s.rampState with
  | .stopped =>
      match s.pendingDirection with
      | some d =>
          { s with rampState := .starting, direction := d, pendingDirection := none }
      | none => s
  | .starting =>
      if RAMP_UP_VALUE_OFFSET_SPEED_PWM < s.rampTargetSpeed then
        { s with rampState := .rampingUp, currentSpeed := RAMP_UP_VALUE_OFFSET_SPEED_PWM }
      else
        { s with rampState := .driving, currentSpeed := s.rampTargetSpeed }
  | .rampingUp =>
      if s.rampTargetSpeed ≤ s.currentSpeed + RAMP_UP_VALUE_DELTA then
        { s with rampState := .driving, currentSpeed := s.rampTargetSpeed }
      else
        { s with currentSpeed := s.currentSpeed + RAMP_UP_VALUE_DELTA }
  | .driving => s
  | .rampingDown =>
      if s.currentSpeed ≤ RAMP_VALUE_MIN_SPEED_PWM then
        { s with rampState := .stopped, currentSpeed := 0, direction := .stopped }
      else
        { s with currentSpeed := s.currentSpeed - RAMP_DOWN_VALUE_DELTA }

/-- Modelled from the spec: the command surface request "direction `d` at
target speed `t`" (sections 4.3 and 4.5).
* From `Stopped` with a nonzero target and a running direction: enter
  `Starting` in direction `d`.
* While moving, a request for a different running direction never flips
  the output: it routes through `RampingDown` and records the direction as
  pending so the motor restarts only after the duty cycle reached 0.
* A request for the same direction while moving, or a `Stopped` direction
  argument, leaves the state unchanged (stopping is the `stop` commands). -/
def setDirectionAndSpeed (d : Direction) (t : Nat) (s : MotorState) : MotorState :=
  if d = .stopped then s
  else
    match s.rampState with
    | .stopped =>
        if 0 < t then
          { s with rampState := .starting, direction := d, rampTargetSpeed := t
                   pendingDirection := none }
        else s
    | _ =>
        if d = s.direction then s
        else
          { s with rampState := .rampingDown, rampTargetSpeed := t
                   pendingDirection := some d }

/-- Modelled from the spec: an explicit ramped stop request
(`Driving → RampingDown` on an explicit stop/ramp-down request). -/
def startRampDown (s : MotorState) : MotorState :=
  match s.rampState with
  | .stopped => s
  | .rampingDown => s
  | _ => { s with rampState := .rampingDown }

/-- Modelled from the spec: an explicit hard stop, "any state → Stopped
immediately (bypasses ramp)". -/
def stopNow (s : MotorState) : MotorState :=
  { s with rampState := .stopped, currentSpeed := 0, direction := .stopped
           pendingDirection := none }

/-- One step of the motor: either the periodic tick or one of the
command-surface operations. -/
inductive Cmd where
  | tick
  | setDirectionAndSpeed (d : Direction) (t : Nat)
  | startRampDown
  | stopNow
deriving DecidableEq, Repr

def applyCmd : Cmd → MotorState → MotorState
  | .tick, s => updateMotor s
  | .setDirectionAndSpeed d t, s => setDirectionAndSpeed d t s
  | .startRampDown, s => startRampDown s
  | .stopNow, s => stopNow s

/-- States reachable from the initial state by ticks and commands. -/
inductive Reachable : MotorState → Prop where
  | init : Reachable initMotorState
  | step (c : Cmd) {s : MotorState} : Reachable s → Reachable (applyCmd c s)

/-! ### Distance Estimator -/

/-- Modelled from the spec: the stop deadline computed by
`startGoDistanceMillimeter` and stored in the header field
`computedMillisOfMotorStopForDistance` (specification section 4.4,
`computeStopDeadline`): current time plus the fixed
`DEFAULT_MOTOR_START_TIME_MILLIS`, plus the distance converted to
centimeters times the milliseconds-per-centimeter calibration, scaled by
the ratio between the duty cycle the calibration was measured at
(`DriveSpeedPWM`) and the duty cycle used for the move (a faster duty
cycle gives a proportionally shorter time).  Integer division is applied
once, at the end, for resolution. -/
def computedMillisOfMotorStopForDistance
    (now aRequestedDistanceMillimeter driveSpeedPWM usedSpeedPWM
      millisPerCentimeter : Nat) : Nat :=
  now + DEFAULT_MOTOR_START_TIME_MILLIS +
    aRequestedDistanceMillimeter * millisPerCentimeter * driveSpeedPWM /
      (MILLIMETER_IN_ONE_CENTIMETER * usedSpeedPWM)

/-! ### Voltage/PWM Converter -/

/-- Modelled from the spec: `voltageForDutyCycle(duty, supplyVoltage,
bridgeLossVoltage) = duty/MAX * (supplyVoltage - bridgeLossVoltage)`,
clamped to be nonnegative (specification section 4.1; the header only
declares `getMotorVoltageforPWMAndMillivolt`).  Exact rational arithmetic
stands in for the C `float`. -/
def voltageForDutyCycle (duty supplyVoltage bridgeLossVoltage : ℚ) : ℚ :=
  max 0 (duty / (MAX_SPEED_PWM : ℚ) * (supplyVoltage - bridgeLossVoltage))

/-- Modelled from the spec: `dutyCycleForVoltage` solves the same linear
relation, rounds to the nearest integer duty step and saturates to
`[0, MAX_SPEED_PWM]` (specification section 4.1). -/
def dutyCycleForVoltage (voltage supplyVoltage bridgeLossVoltage : ℚ) : ℤ :=
  min (MAX_SPEED_PWM : ℤ)
    (max 0 (round (voltage * (MAX_SPEED_PWM : ℚ) / (supplyVoltage - bridgeLossVoltage))))

/-! ### Speed Compensation -/

/-- Modelled from the spec: `computeCompensation(speedA, speedB)` assigns a
positive offset to the faster motor so that the compensated speeds match,
with the slower motor's offset forced to 0 (specification section 4.2; the
computation lives in `EncoderMotor::synchronizeMotor`, which is not in the
source tree). -/
def computeCompensation (speedA speedB : Nat) : Nat × Nat :=
  if speedB < speedA then (speedA - speedB, 0) else (0, speedB - speedA)

/-- A compensation-setting operation on a pair of sibling motors: either
the synchronization path (`computeCompensation`) or the public per-motor
setter `setSpeedPWMCompensation`, which the header declares per motor with
no access to the sibling. -/
inductive CompOp where
  | syncCompensation (speedA speedB : Nat)
  | setCompensationLeft (v : Nat)
  | setCompensationRight (v : Nat)
deriving DecidableEq, Repr

def CompOp.isSync : CompOp → Bool
  | .syncCompensation _ _ => true
  | .setCompensationLeft _ => false
  | .setCompensationRight _ => false

/-- Modelled from the spec: effect of one compensation-setting operation on
the pair of `SpeedPWMCompensation` offsets. -/
def applyCompOp (op : CompOp) (p : Nat × Nat) : Nat × Nat :=
  match op with
  | .syncCompensation a b => computeCompensation a b
  | .setCompensationLeft v => (v, p.2)
  | .setCompensationRight v => (p.1, v)

def runCompOps (ops : List CompOp) (p : Nat × Nat) : Nat × Nat :=
  ops.foldl (fun q op => applyCompOp op q) p

/-! ### Motor Command Surface -/

/-- The invalid-input condition reported by a Motor Command Surface
operation (specification section 7). -/
inductive MotorCommandError where
  | invalidSpeed
  | invalidDirection
  | invalidStopMode
deriving DecidableEq, Repr

/-- The legal direction codes of the header: `DIRECTION_STOP`,
`DIRECTION_FORWARD`, `DIRECTION_BACKWARD`. -/
def isLegalDirectionCode (d : Nat) : Bool :=
  d == DIRECTION_STOP || d == DIRECTION_FORWARD || d == DIRECTION_BACKWARD

/-- The legal stop-mode codes of the header: `STOP_MODE_BRAKE`,
`STOP_MODE_RELEASE` and the `STOP_MODE_KEEP` pseudo mode of `stop()`. -/
def isLegalStopModeCode (m : Nat) : Bool :=
  m == STOP_MODE_BRAKE || m == STOP_MODE_RELEASE || m == STOP_MODE_KEEP

/-- The speed/compensation/direction fields of `PWMDcMotor` as declared in
the header, with the header's numeric direction codes. -/
structure RawMotorState where
  requestedSpeedPWM : Nat
  speedPWMCompensation : Nat
  compensatedSpeedPWM : Nat
  currentDirection : Nat
  defaultStopMode : Nat
deriving DecidableEq, Repr

/-- Modelled from the spec: `setSpeedPWMAndDirection` (specification
sections 3, 4.5 and 7).  An out-of-range duty cycle or a direction outside
the legal enumerated set is rejected: the state is returned unchanged and
the condition is reported.  Otherwise the requested speed is stored, the
compensated speed is `max(0, requested - compensation)` (truncated `Nat`
subtraction), and a compensated speed of 0 drives the direction to
`DIRECTION_STOP`. -/
def setSpeedPWMAndDirectionChecked (s : RawMotorState)
    (aRequestedSpeedPWM aRequestedDirection : Nat) :
    RawMotorState × Option MotorCommandError :=
  if MAX_SPEED_PWM < aRequestedSpeedPWM then
    (s, some .invalidSpeed)
  else if isLegalDirectionCode aRequestedDirection = false then
    (s, some .invalidDirection)
  else
    ({ s with
        requestedSpeedPWM := aRequestedSpeedPWM
        compensatedSpeedPWM := aRequestedSpeedPWM - s.speedPWMCompensation
        currentDirection :=
          if aRequestedSpeedPWM - s.speedPWMCompensation = 0 then DIRECTION_STOP
          else aRequestedDirection },
      none)

/-- Modelled from the spec: `setDirection` rejects a direction outside the
legal enumerated set, leaving the state unchanged and reporting the
condition (specification section 7). -/
def setDirectionChecked (s : RawMotorState) (aMotorDirection : Nat) :
    RawMotorState × Option MotorCommandError :=
  if isLegalDirectionCode aMotorDirection = false then
    (s, some .invalidDirection)
  else
    ({ s with currentDirection := aMotorDirection }, none)

/-- Modelled from the spec: `stop(mode)` with `mode` one of brake, release
or keep-previous-default; an illegal mode is rejected as a no-op and
reported (specification sections 4.5 and 7). -/
def stopChecked (s : RawMotorState) (aStopMode : Nat) :
    RawMotorState × Option MotorCommandError :=
  if isLegalStopModeCode aStopMode = false then
    (s, some .invalidStopMode)
  else
    ({ s with
        requestedSpeedPWM := 0
        compensatedSpeedPWM := 0
        currentDirection := DIRECTION_STOP
        defaultStopMode :=
          if aStopMode = STOP_MODE_KEEP then s.defaultStopMode else aStopMode },
      none)

end PWMMotorControl

namespace PWMMotorControl

/-! ### Claim theorems settled directly from the header -/

/-- Claim C9: the XOR-based `oppositeDIRECTION` swaps `DIRECTION_FORWARD`
(0x01) and `DIRECTION_BACKWARD` (0x02) and hence is an involution on the
legal direction set; applied to `DIRECTION_STOP` it yields 0x03, which is
`STOP_MODE_RELEASE` and is not one of the three direction values. -/
theorem oppositeDIRECTION_swaps_and_maps_stop_to_release :
    oppositeDIRECTION DIRECTION_FORWARD = DIRECTION_BACKWARD ∧
    oppositeDIRECTION DIRECTION_BACKWARD = DIRECTION_FORWARD ∧
    oppositeDIRECTION (oppositeDIRECTION DIRECTION_FORWARD) = DIRECTION_FORWARD ∧
    oppositeDIRECTION (oppositeDIRECTION DIRECTION_BACKWARD) = DIRECTION_BACKWARD ∧
    oppositeDIRECTION DIRECTION_STOP = STOP_MODE_RELEASE ∧
    STOP_MODE_RELEASE ≠ DIRECTION_STOP ∧
    STOP_MODE_RELEASE ≠ DIRECTION_FORWARD ∧
    STOP_MODE_RELEASE ≠ DIRECTION_BACKWARD := by
  decide

/-- Claim C10: `RAMP_DOWN_VALUE_OFFSET_SPEED_PWM` is computed from
`RAMP_UP_VALUE_OFFSET_MILLIVOLT` (2000 mV), not from
`RAMP_DOWN_VALUE_OFFSET_MILLIVOLT` (2500 mV): it equals the ramp-up kick
duty cycle (106 for the default 4.8 V configuration), it is exactly the
generic conversion applied to the ramp-up millivolt constant, and it is
invariant under substituting any value for the ramp-down millivolt
constant (the macro body never mentions it). -/
theorem rampDownOffset_uses_rampUpMillivolt :
    RAMP_DOWN_VALUE_OFFSET_SPEED_PWM = RAMP_UP_VALUE_OFFSET_SPEED_PWM ∧
    RAMP_DOWN_VALUE_OFFSET_SPEED_PWM =
      rampOffsetSpeedPWMofMillivolt RAMP_UP_VALUE_OFFSET_MILLIVOLT ∧
    (∀ m : Nat, RAMP_DOWN_VALUE_OFFSET_SPEED_PWM =
      (fun _ : Nat => rampOffsetSpeedPWMofMillivolt RAMP_UP_VALUE_OFFSET_MILLIVOLT) m) ∧
    RAMP_DOWN_VALUE_OFFSET_SPEED_PWM ≠
      rampOffsetSpeedPWMofMillivolt RAMP_DOWN_VALUE_OFFSET_MILLIVOLT ∧
    RAMP_DOWN_VALUE_OFFSET_SPEED_PWM = 106 := by
  refine ⟨rfl, rfl, fun m => rfl, by decide, by decide⟩

/-- Helper invariant of the Ramp Controller: in the `Stopped` ramp state the
applied duty cycle is 0, and while `RampingUp` the applied duty cycle never
exceeds the ramp target. -/
theorem reachable_invariant {s : MotorState} (h : Reachable s) :
    (s.rampState = RampState.stopped → s.currentSpeed = 0) ∧
    (s.rampState = RampState.rampingUp → s.currentSpeed ≤ s.rampTargetSpeed) := by
  induction h with
  | init => exact ⟨fun _ => rfl, fun hc => by simp [initMotorState] at hc⟩
  | step c h ih =>
    rename_i s
    obtain ⟨i1, i2⟩ := ih
    rcases s with ⟨rs, cur, tgt, dir, pend⟩
    cases c with
    | tick =>
      cases rs with
      | stopped => cases pend <;> simp_all [applyCmd, updateMotor]
      | starting =>
        simp only [applyCmd, updateMotor]
        split_ifs with hk
        · simp_all
          omega
        · simp_all
      | rampingUp =>
        simp only [applyCmd, updateMotor]
        split_ifs with hk
        · simp_all
        · simp_all
          omega
      | driving => simp_all [applyCmd, updateMotor]
      | rampingDown =>
        simp only [applyCmd, updateMotor]
        split_ifs with hk <;> simp_all
    | setDirectionAndSpeed d t =>
      simp only [applyCmd, setDirectionAndSpeed]
      cases rs <;> split_ifs <;> simp_all
    | startRampDown => cases rs <;> simp_all [applyCmd, startRampDown]
    | stopNow => simp_all [applyCmd, stopNow]

/-- Claim C2: for every reachable motor state, an `updateMotor` tick taken
in ramp state `RampingDown` never increases the applied duty cycle, a tick
taken in `RampingUp` never decreases it, and whenever a tick moves the
ramp state from `RampingDown` to `Stopped` the applied duty cycle is
exactly 0 at that transition. -/
theorem updateMotor_ramp_monotone (s : MotorState) (h : Reachable s) :
    (s.rampState = RampState.rampingDown →
      (updateMotor s).currentSpeed ≤ s.currentSpeed) ∧
    (s.rampState = RampState.rampingUp →
      s.currentSpeed ≤ (updateMotor s).currentSpeed) ∧
    (s.rampState = RampState.rampingDown →
      (updateMotor s).rampState = RampState.stopped →
      (updateMotor s).currentSpeed = 0) := by
  obtain ⟨i1, i2⟩ := reachable_invariant h
  rcases s with ⟨rs, cur, tgt, dir, pend⟩
  refine ⟨?_, ?_, ?_⟩
  · intro hrs
    subst hrs
    simp only [updateMotor]
    split_ifs with hk
    · simp
    · simp
  · intro hrs
    subst hrs
    simp only [updateMotor]
    split_ifs with hk
    · simp_all
    · simp
  · intro hrs
    subst hrs
    simp only [updateMotor]
    split_ifs with hk
    · simp
    · simp_all

/-- Witness for C2 at a concrete reachable state: start the motor toward
target 180, tick once into `RampingUp` (duty 106), request a ramp-down;
the resulting reachable `RampingDown` state ticks monotonically down, and
since 106 is at the minimum-sustainable threshold the very next tick is
the `RampingDown → Stopped` transition with duty exactly 0. -/
theorem updateMotor_ramp_monotone_witness :
    Reachable (MotorState.mk RampState.rampingDown 106 180 Direction.forward none) ∧
    (updateMotor (MotorState.mk RampState.rampingDown 106 180 Direction.forward none)).currentSpeed ≤ 106 ∧
    (updateMotor (MotorState.mk RampState.rampingDown 106 180 Direction.forward none)).rampState = RampState.stopped ∧
    (updateMotor (MotorState.mk RampState.rampingDown 106 180 Direction.forward none)).currentSpeed = 0 := by
  have hreach : Reachable (MotorState.mk RampState.rampingDown 106 180 Direction.forward none) :=
    Reachable.step Cmd.startRampDown
      (Reachable.step Cmd.tick
        (Reachable.step (Cmd.setDirectionAndSpeed Direction.forward 180) Reachable.init))
  refine ⟨hreach, ?_, by decide, ?_⟩
  · exact (updateMotor_ramp_monotone _ hreach).1 rfl
  · exact (updateMotor_ramp_monotone _ hreach).2.2 rfl (by decide)

/-- Helper for C3: from any `RampingUp` state whose duty cycle is strictly
below the target, iterated ticks stay in `RampingUp` for some number of
steps and then move to `Driving`; `k` is fuel bounding the number of
remaining ramp steps. -/
theorem rampingUp_reaches_driving :
    ∀ (k : Nat) (s : MotorState), s.rampState = RampState.rampingUp →
      s.currentSpeed < s.rampTargetSpeed →
      s.rampTargetSpeed ≤ s.currentSpeed + k * RAMP_UP_VALUE_DELTA →
      ∃ n : Nat, (∀ i, i ≤ n → (updateMotor^[i] s).rampState = RampState.rampingUp) ∧
        (updateMotor^[n + 1] s).rampState = RampState.driving := by
  have hdelta : RAMP_UP_VALUE_DELTA = 12 := by decide
  intro k
  induction k with
  | zero =>
    intro s h1 h2 h3
    omega
  | succ k ih =>
    intro s h1 h2 h3
    by_cases hstep : s.rampTargetSpeed ≤ s.currentSpeed + RAMP_UP_VALUE_DELTA
    · refine ⟨0, ?_, ?_⟩
      · intro i hi
        have hi0 : i = 0 := Nat.le_zero.mp hi
        subst hi0
        simpa using h1
      · rw [Function.iterate_one]
        rcases s with ⟨rs, cur, tgt, dir, pend⟩
        simp only at h1
        subst h1
        simp only [updateMotor]
        rw [if_pos hstep]
    · have h1' : (updateMotor s).rampState = RampState.rampingUp := by
        rcases s with ⟨rs, cur, tgt, dir, pend⟩
        simp only at h1
        subst h1
        simp only [updateMotor]
        rw [if_neg hstep]
      have hc : (updateMotor s).currentSpeed = s.currentSpeed + RAMP_UP_VALUE_DELTA := by
        rcases s with ⟨rs, cur, tgt, dir, pend⟩
        simp only at h1
        subst h1
        simp only [updateMotor]
        rw [if_neg hstep]
      have ht : (updateMotor s).rampTargetSpeed = s.rampTargetSpeed := by
        rcases s with ⟨rs, cur, tgt, dir, pend⟩
        simp only at h1
        subst h1
        simp only [updateMotor]
        rw [if_neg hstep]
      obtain ⟨n, hn, hdrive⟩ := ih (updateMotor s)
        h1' (by omega) (by rw [hc, ht, hdelta]; rw [hdelta] at h3; omega)
      refine ⟨n + 1, ?_, ?_⟩
      · intro i hi
        cases i with
        | zero => simpa using h1
        | succ j =>
          rw [Function.iterate_succ_apply]
          exact hn j (by omega)
      · rw [Function.iterate_succ_apply]
        exact hdrive

/-- Claim C3: a ramped start from the `Stopped` ramp state toward a target
speed exceeding the start kick threshold visits `Stopped`, `Starting`,
`RampingUp`, `Driving` in that order with no state skipped: the command
puts the motor in `Starting`, the very next tick leaves `Starting`
unconditionally into `RampingUp`, and after `n ≥ 1` ticks spent in
`RampingUp` the next tick enters `Driving`. -/
theorem startFromStopped_visits_states (s : MotorState)
    (hs : s.rampState = RampState.stopped) (d : Direction)
    (hd : d ≠ Direction.stopped) (t : Nat)
    (ht : RAMP_UP_VALUE_OFFSET_SPEED_PWM < t) :
    (setDirectionAndSpeed d t s).rampState = RampState.starting ∧
    (updateMotor (setDirectionAndSpeed d t s)).rampState = RampState.rampingUp ∧
    ∃ n : Nat, 1 ≤ n ∧
      (∀ i, 1 ≤ i → i ≤ n →
        (updateMotor^[i] (setDirectionAndSpeed d t s)).rampState = RampState.rampingUp) ∧
      (updateMotor^[n + 1] (setDirectionAndSpeed d t s)).rampState = RampState.driving := by
  have hkick : RAMP_UP_VALUE_OFFSET_SPEED_PWM = 106 := by decide
  have h0t : 0 < t := by omega
  rcases s with ⟨rs, cur, tgt, dir, pend⟩
  simp only at hs
  subst hs
  have h1 : (setDirectionAndSpeed d t (MotorState.mk RampState.stopped cur tgt dir pend)) =
      MotorState.mk RampState.starting cur t d none := by
    simp [setDirectionAndSpeed, hd, h0t]
  rw [h1]
  have h2 : updateMotor (MotorState.mk RampState.starting cur t d none) =
      MotorState.mk RampState.rampingUp RAMP_UP_VALUE_OFFSET_SPEED_PWM t d none := by
    simp only [updateMotor]
    rw [if_pos ht]
  refine ⟨rfl, by rw [h2], ?_⟩
  have hrun := rampingUp_reaches_driving t
    (MotorState.mk RampState.rampingUp RAMP_UP_VALUE_OFFSET_SPEED_PWM t d none)
    rfl (by simpa using ht)
    (by have hdelta : RAMP_UP_VALUE_DELTA = 12 := by decide
        simp only [hdelta, hkick]
        omega)
  obtain ⟨n, hn, hdrive⟩ := hrun
  refine ⟨n + 1, by omega, ?_, ?_⟩
  · intro i h1i hin
    obtain ⟨j, rfl⟩ : ∃ j, i = j + 1 := ⟨i - 1, by omega⟩
    rw [Function.iterate_succ_apply, h2]
    exact hn j (by omega)
  · rw [Function.iterate_succ_apply, h2]
    exact hdrive

/-- Witness for C3: from the initial state, starting forward with target 180
(the kick threshold is 106 < 180) produces the claimed
Stopped-Starting-RampingUp-Driving trajectory. -/
theorem startFromStopped_visits_states_witness :
    initMotorState.rampState = RampState.stopped ∧
    Direction.forward ≠ Direction.stopped ∧
    RAMP_UP_VALUE_OFFSET_SPEED_PWM < 180 ∧
    ((setDirectionAndSpeed Direction.forward 180 initMotorState).rampState = RampState.starting ∧
    (updateMotor (setDirectionAndSpeed Direction.forward 180 initMotorState)).rampState = RampState.rampingUp ∧
    ∃ n : Nat, 1 ≤ n ∧
      (∀ i, 1 ≤ i → i ≤ n →
        (updateMotor^[i] (setDirectionAndSpeed Direction.forward 180 initMotorState)).rampState = RampState.rampingUp) ∧
      (updateMotor^[n + 1] (setDirectionAndSpeed Direction.forward 180 initMotorState)).rampState = RampState.driving) :=
  ⟨rfl, by decide, by decide,
    startFromStopped_visits_states initMotorState rfl Direction.forward (by decide) 180 (by decide)⟩

/-- Claim C4: a request for the opposite direction never flips the output
direction while the motor is still applying drive power.  First conjunct:
while moving, a reversal request leaves the output direction unchanged,
routes the ramp state to `RampingDown` and only records the new direction
as pending.  Second conjunct: for every reachable state, any step (tick or
command) that makes the output direction a running direction different
from the previous one happens from duty cycle exactly 0, so there is no
step at which the output direction is the new direction while the duty
cycle applied at the previous tick was above the minimum threshold in the
old direction. -/
theorem directionReversal_rampsDown_first (s : MotorState) (h : Reachable s) :
    (∀ d t, d ≠ Direction.stopped → d ≠ s.direction →
        s.rampState ≠ RampState.stopped →
        (setDirectionAndSpeed d t s).direction = s.direction ∧
        (setDirectionAndSpeed d t s).rampState = RampState.rampingDown ∧
        (setDirectionAndSpeed d t s).pendingDirection = some d) ∧
    (∀ c : Cmd, (applyCmd c s).direction ≠ s.direction →
        (applyCmd c s).direction ≠ Direction.stopped → s.currentSpeed = 0) := by
  have hinv := (reachable_invariant h).1
  rcases s with ⟨rs, cur, tgt, dir, pend⟩
  constructor
  · intro d t hd hne hrs
    cases rs <;> simp_all [setDirectionAndSpeed]
  · intro c
    cases c with
    | tick =>
      cases rs with
      | stopped => cases pend <;> simp_all [applyCmd, updateMotor]
      | starting =>
        simp only [applyCmd, updateMotor]
        split_ifs <;> simp_all
      | rampingUp =>
        simp only [applyCmd, updateMotor]
        split_ifs <;> simp_all
      | driving => simp_all [applyCmd, updateMotor]
      | rampingDown =>
        simp only [applyCmd, updateMotor]
        split_ifs <;> simp_all
    | setDirectionAndSpeed d t =>
      simp only [applyCmd, setDirectionAndSpeed]
      cases rs <;> split_ifs <;> simp_all
    | startRampDown => cases rs <;> simp_all [applyCmd, startRampDown]
    | stopNow => simp_all [applyCmd, stopNow]

/-- Claim C1: the computed stop deadline for a fixed-distance move is the
current time plus the fixed `DEFAULT_MOTOR_START_TIME_MILLIS` plus the
distance term `distance * millisPerCentimeter / 10` scaled by the ratio
between the calibration duty cycle and the used duty cycle; when the move
runs at the calibration duty cycle the ratio is 1, and for driveSpeed=180,
distance=220 mm, calibration 45 ms/cm (which is also the header's
`DEFAULT_MILLIS_PER_CENTIMETER`) the scheduled run time beyond `now` is
exactly `DEFAULT_MOTOR_START_TIME_MILLIS + 22 * 45` milliseconds. -/
theorem computedMillisOfMotorStopForDistance_formula :
    (∀ now distance driveP usedP cal : Nat,
      computedMillisOfMotorStopForDistance now distance driveP usedP cal =
        now + DEFAULT_MOTOR_START_TIME_MILLIS +
          distance * cal * driveP / (10 * usedP)) ∧
    (∀ now distance cal p : Nat, 0 < p →
      computedMillisOfMotorStopForDistance now distance p p cal =
        now + DEFAULT_MOTOR_START_TIME_MILLIS + distance * cal / 10) ∧
    DEFAULT_MILLIS_PER_CENTIMETER = 45 ∧
    (∀ now : Nat, computedMillisOfMotorStopForDistance now 220 180 180 45 =
      now + DEFAULT_MOTOR_START_TIME_MILLIS + 22 * 45) := by
  refine ⟨fun _ _ _ _ _ => rfl, ?_, by decide, fun now => rfl⟩
  intro now distance cal p hp
  simp only [computedMillisOfMotorStopForDistance, MILLIMETER_IN_ONE_CENTIMETER]
  rw [Nat.mul_div_mul_right (distance * cal) 10 hp]

/-- Witness for C1 at a concrete input: a move at the calibration duty
cycle 180 over 100 mm with the 45 ms/cm calibration schedules
`now + DEFAULT_MOTOR_START_TIME_MILLIS + 100 * 45 / 10`. -/
theorem computedMillisOfMotorStopForDistance_formula_witness :
    0 < 180 ∧
    computedMillisOfMotorStopForDistance 0 100 180 180 45 =
      0 + DEFAULT_MOTOR_START_TIME_MILLIS + 100 * 45 / 10 :=
  ⟨by decide,
    computedMillisOfMotorStopForDistance_formula.2.1 0 100 45 180 (by decide)⟩

/-- Counterexample for C5 as stated: the claim quantifies over every supply
voltage and bridge loss, but with a bridge loss equal to the supply
voltage (zero effective headroom) the clamped forward conversion sends the
legal duty cycle 180 to 0 volts and the inverse returns duty 0, which is
not within one duty step of 180. -/
theorem dutyCycle_roundTrip_fails_without_headroom :
    ¬ |dutyCycleForVoltage (voltageForDutyCycle 180 4800 4800) 4800 4800 - 180| ≤ 1 := by
  have h1 : voltageForDutyCycle 180 4800 4800 = 0 := by
    norm_num [voltageForDutyCycle, MAX_SPEED_PWM]
  rw [h1]
  have h2 : dutyCycleForVoltage 0 4800 4800 = 0 := by
    norm_num [dutyCycleForVoltage, MAX_SPEED_PWM]
  rw [h2]
  decide

/-- Claim C5 (amended): for every legal duty cycle `d` in
`[0, MAX_SPEED_PWM]` and every supply voltage `V` and bridge loss `L` with
`L < V`, converting `d` to a motor voltage and back yields a duty cycle
within plus or minus one duty step of `d` (the round trip is exact, so the
distance is 0). -/
theorem dutyCycle_voltage_roundTrip (d : Nat) (hd : d ≤ MAX_SPEED_PWM)
    (V L : ℚ) (hVL : L < V) :
    |dutyCycleForVoltage (voltageForDutyCycle (d : ℚ) V L) V L - (d : ℤ)| ≤ 1 := by
  have hpos : (0:ℚ) < V - L := by linarith
  unfold voltageForDutyCycle dutyCycleForVoltage
  have h1 : max (0:ℚ) ((d:ℚ) / (MAX_SPEED_PWM:ℚ) * (V - L)) =
      (d:ℚ) / (MAX_SPEED_PWM:ℚ) * (V - L) :=
    max_eq_right (mul_nonneg (by positivity) (le_of_lt hpos))
  rw [h1]
  have hne : (V - L) ≠ 0 := ne_of_gt hpos
  have hM : ((MAX_SPEED_PWM : ℕ) : ℚ) ≠ 0 := by norm_num [MAX_SPEED_PWM]
  have h2 : (d:ℚ) / (MAX_SPEED_PWM:ℚ) * (V - L) * (MAX_SPEED_PWM:ℚ) / (V - L) = (d:ℚ) := by
    field_simp
  rw [h2, round_natCast]
  have h3 : max (0:ℤ) (d:ℤ) = (d:ℤ) := max_eq_right (Int.natCast_nonneg d)
  rw [h3]
  have h4 : min ((MAX_SPEED_PWM : ℕ) : ℤ) (d:ℤ) = (d:ℤ) :=
    min_eq_right (by exact_mod_cast hd)
  rw [h4]
  simp

/-- Witness for C5 (amended) at a concrete input: duty 180 with a 4.8 volt
supply and zero bridge loss round-trips to within one duty step. -/
theorem dutyCycle_voltage_roundTrip_witness :
    180 ≤ MAX_SPEED_PWM ∧ (0:ℚ) < 4800 ∧
    |dutyCycleForVoltage (voltageForDutyCycle ((180:Nat) : ℚ) 4800 0) 4800 0 - ((180:Nat) : ℤ)| ≤ 1 :=
  ⟨by decide, by norm_num, dutyCycle_voltage_roundTrip 180 (by decide) 4800 0 (by norm_num)⟩

/-- Counterexample for C6 as stated: `setSpeedPWMCompensation` is declared
per motor with no access to the sibling, so the sequence that sets a
nonzero offset on each motor in turn leaves both offsets nonzero, violating
the claimed pair invariant for sequences of compensation-setting
operations. -/
theorem compensation_pair_claim_fails_with_setters :
    (runCompOps [CompOp.setCompensationLeft 2, CompOp.setCompensationRight 2] (0, 0)).1 ≠ 0 ∧
    (runCompOps [CompOp.setCompensationLeft 2, CompOp.setCompensationRight 2] (0, 0)).2 ≠ 0 := by
  decide

/-- Claim C6 (amended): after every sequence of synchronization
(`computeCompensation`) operations starting from the zero offsets, at most
one motor of the pair has a nonzero `SpeedPWMCompensation` offset, and the
slower motor's offset is always 0; the independent per-motor
`setSpeedPWMCompensation` setter is excluded, since it can break the
invariant. -/
theorem compensation_pair_invariant (ops : List CompOp)
    (hsync : ops.all CompOp.isSync = true) :
    ((runCompOps ops (0, 0)).1 = 0 ∨ (runCompOps ops (0, 0)).2 = 0) ∧
    (∀ a b : Nat, a ≤ b → (computeCompensation a b).1 = 0) ∧
    (∀ a b : Nat, b ≤ a → (computeCompensation a b).2 = 0) := by
  have hslow1 : ∀ a b : Nat, a ≤ b → (computeCompensation a b).1 = 0 := by
    intro a b hab
    simp only [computeCompensation]
    split_ifs with h
    · omega
    · rfl
  have hslow2 : ∀ a b : Nat, b ≤ a → (computeCompensation a b).2 = 0 := by
    intro a b hab
    simp only [computeCompensation]
    split_ifs with h
    · rfl
    · simp
      omega
  refine ⟨?_, hslow1, hslow2⟩
  have key : ∀ (l : List CompOp), l.all CompOp.isSync = true →
      ∀ p : Nat × Nat, (p.1 = 0 ∨ p.2 = 0) →
      ((runCompOps l p).1 = 0 ∨ (runCompOps l p).2 = 0) := by
    intro l
    induction l with
    | nil => intro _ p hp; exact hp
    | cons op rest ih =>
      intro hall p hp
      simp only [List.all_cons, Bool.and_eq_true] at hall
      cases op with
      | syncCompensation a b =>
        have hstep : ((applyCompOp (CompOp.syncCompensation a b) p).1 = 0 ∨
            (applyCompOp (CompOp.syncCompensation a b) p).2 = 0) := by
          simp only [applyCompOp, computeCompensation]
          split_ifs <;> simp
        exact ih hall.2 _ hstep
      | setCompensationLeft v => simp [CompOp.isSync] at hall
      | setCompensationRight v => simp [CompOp.isSync] at hall
  exact key ops hsync (0, 0) (Or.inl rfl)

/-- Witness for C6 (amended) at a concrete input: one synchronization step
with measured speeds 100 and 90 leaves at most one nonzero offset. -/
theorem compensation_pair_invariant_witness :
    ([CompOp.syncCompensation 100 90].all CompOp.isSync = true) ∧
    ((runCompOps [CompOp.syncCompensation 100 90] (0, 0)).1 = 0 ∨
      (runCompOps [CompOp.syncCompensation 100 90] (0, 0)).2 = 0) :=
  ⟨by decide, (compensation_pair_invariant [CompOp.syncCompensation 100 90] (by decide)).1⟩

/-- Claim C7: after a speed-setting operation with legal arguments, the
state satisfies `CompensatedSpeedPWM = max(0, RequestedSpeedPWM -
SpeedPWMCompensation)`, hence `RequestedSpeedPWM ≥ CompensatedSpeedPWM`,
and a compensated speed of 0 forces the direction to `DIRECTION_STOP`. -/
theorem compensatedSpeed_law (s : RawMotorState) (speed dir : Nat)
    (hspeed : speed ≤ MAX_SPEED_PWM) (hdir : isLegalDirectionCode dir = true) :
    (((setSpeedPWMAndDirectionChecked s speed dir).1.compensatedSpeedPWM : ℤ) =
      max 0 (((setSpeedPWMAndDirectionChecked s speed dir).1.requestedSpeedPWM : ℤ) -
        ((setSpeedPWMAndDirectionChecked s speed dir).1.speedPWMCompensation : ℤ))) ∧
    (setSpeedPWMAndDirectionChecked s speed dir).1.compensatedSpeedPWM ≤
      (setSpeedPWMAndDirectionChecked s speed dir).1.requestedSpeedPWM ∧
    ((setSpeedPWMAndDirectionChecked s speed dir).1.compensatedSpeedPWM = 0 →
      (setSpeedPWMAndDirectionChecked s speed dir).1.currentDirection = DIRECTION_STOP) := by
  simp only [setSpeedPWMAndDirectionChecked]
  rw [if_neg (by omega : ¬ MAX_SPEED_PWM < speed)]
  rw [if_neg (by simp [hdir] : ¬ isLegalDirectionCode dir = false)]
  refine ⟨?_, ?_, ?_⟩
  · simp only
    rw [max_def]
    split_ifs with h <;> omega
  · simp only
    omega
  · intro h
    simp only at h ⊢
    rw [if_pos h]

/-- Witness for C7 at a concrete input: with compensation offset 5 and a
requested speed of 3, the compensated speed is 0 and the direction is
driven to `DIRECTION_STOP`. -/
theorem compensatedSpeed_law_witness :
    3 ≤ MAX_SPEED_PWM ∧ isLegalDirectionCode DIRECTION_FORWARD = true ∧
    ((((setSpeedPWMAndDirectionChecked (RawMotorState.mk 0 5 0 1 0) 3 DIRECTION_FORWARD).1.compensatedSpeedPWM : ℤ) =
      max 0 (((setSpeedPWMAndDirectionChecked (RawMotorState.mk 0 5 0 1 0) 3 DIRECTION_FORWARD).1.requestedSpeedPWM : ℤ) -
        ((setSpeedPWMAndDirectionChecked (RawMotorState.mk 0 5 0 1 0) 3 DIRECTION_FORWARD).1.speedPWMCompensation : ℤ))) ∧
    (setSpeedPWMAndDirectionChecked (RawMotorState.mk 0 5 0 1 0) 3 DIRECTION_FORWARD).1.compensatedSpeedPWM ≤
      (setSpeedPWMAndDirectionChecked (RawMotorState.mk 0 5 0 1 0) 3 DIRECTION_FORWARD).1.requestedSpeedPWM ∧
    ((setSpeedPWMAndDirectionChecked (RawMotorState.mk 0 5 0 1 0) 3 DIRECTION_FORWARD).1.compensatedSpeedPWM = 0 →
      (setSpeedPWMAndDirectionChecked (RawMotorState.mk 0 5 0 1 0) 3 DIRECTION_FORWARD).1.currentDirection = DIRECTION_STOP)) :=
  ⟨by decide, by decide,
    compensatedSpeed_law (RawMotorState.mk 0 5 0 1 0) 3 DIRECTION_FORWARD (by decide) (by decide)⟩

/-- Claim C8: a Motor Command Surface call (`setSpeedPWMAndDirection`,
`setDirection`, `stop`) with a duty cycle or direction or stop-mode value
outside the legal enumerated set leaves the entire motor state unchanged
(no partial update) and reports the invalid-input condition to the
caller. -/
theorem invalid_input_is_noop_and_reported :
    (∀ (s : RawMotorState) (speed dir : Nat),
      MAX_SPEED_PWM < speed ∨ isLegalDirectionCode dir = false →
      (setSpeedPWMAndDirectionChecked s speed dir).1 = s ∧
      ∃ e, (setSpeedPWMAndDirectionChecked s speed dir).2 = some e) ∧
    (∀ (s : RawMotorState) (dir : Nat), isLegalDirectionCode dir = false →
      (setDirectionChecked s dir).1 = s ∧
      (setDirectionChecked s dir).2 = some MotorCommandError.invalidDirection) ∧
    (∀ (s : RawMotorState) (mode : Nat), isLegalStopModeCode mode = false →
      (stopChecked s mode).1 = s ∧
      (stopChecked s mode).2 = some MotorCommandError.invalidStopMode) := by
  refine ⟨?_, ?_, ?_⟩
  · intro s speed dir h
    simp only [setSpeedPWMAndDirectionChecked]
    by_cases h1 : MAX_SPEED_PWM < speed
    · rw [if_pos h1]
      exact ⟨rfl, MotorCommandError.invalidSpeed, rfl⟩
    · rw [if_neg h1]
      have h2 : isLegalDirectionCode dir = false := by
        rcases h with h | h
        · exact absurd h h1
        · exact h
      rw [if_pos h2]
      exact ⟨rfl, MotorCommandError.invalidDirection, rfl⟩
  · intro s dir h
    simp only [setDirectionChecked]
    rw [if_pos h]
    exact ⟨rfl, rfl⟩
  · intro s mode h
    simp only [stopChecked]
    rw [if_pos h]
    exact ⟨rfl, rfl⟩

/-- Witness for C8 at a concrete input: direction code 7 is outside the
legal enumerated set, so the call is a no-op on the state and the
condition is reported. -/
theorem invalid_input_is_noop_and_reported_witness :
    (MAX_SPEED_PWM < 100 ∨ isLegalDirectionCode 7 = false) ∧
    ((setSpeedPWMAndDirectionChecked (RawMotorState.mk 10 0 10 1 0) 100 7).1 =
      RawMotorState.mk 10 0 10 1 0 ∧
    ∃ e, (setSpeedPWMAndDirectionChecked (RawMotorState.mk 10 0 10 1 0) 100 7).2 = some e) :=
  ⟨Or.inr (by decide),
    invalid_input_is_noop_and_reported.1 (RawMotorState.mk 10 0 10 1 0) 100 7
      (Or.inr (by decide))⟩

/-- Witness for C4 at a concrete input: from the (reachable) initial state,
the start command changes the output direction to `forward` (a running
direction), and indeed the previously applied duty cycle is 0. -/
theorem directionReversal_rampsDown_first_witness :
    Reachable initMotorState ∧
    (applyCmd (Cmd.setDirectionAndSpeed Direction.forward 180) initMotorState).direction ≠
      initMotorState.direction ∧
    (applyCmd (Cmd.setDirectionAndSpeed Direction.forward 180) initMotorState).direction ≠
      Direction.stopped ∧
    initMotorState.currentSpeed = 0 :=
  ⟨Reachable.init, by decide, by decide,
    (directionReversal_rampsDown_first initMotorState Reachable.init).2
      (Cmd.setDirectionAndSpeed Direction.forward 180) (by decide) (by decide)⟩

end PWMMotorControl
